import Mathlib

/-!
Verification development for the flat-file task manager
(`task_manager.py`).  The Python source is shallowly embedded:

* `PyDateTime` models a naive `datetime.datetime` value; comparison of
  datetimes is lexicographic on the seven components, exactly as in
  Python.
* `parseDate` models `datetime.strptime(s, "%Y-%m-%d")`: a four-digit
  year, a one-or-two-digit month in 1..12, a one-or-two-digit day,
  separated by literal dashes, consuming the whole string, followed by
  the calendar validity check performed by the `datetime` constructor
  (day in range for the month, year in 1..9999).  Digits are modelled
  as the ASCII digits.
* Python numbers are modelled by `ℚ`; `round(x, 2)` is modelled by
  `round2`, round-half-to-even at two decimals, the documented rounding
  rule of Python's `round`.
* File contents are modelled as `List Char`; reading a text file line
  by line is modelled by `splitLines` (universal-newline semantics),
  `str.strip` by `trimL`, and `line.split(", ")` by `splitSep`.
* `generate_reports` performs I/O; its two possible write failures are
  modelled by two boolean inputs, and the observable outcome (which
  writes were attempted, which succeeded, which messages were printed)
  is returned in a `ReportOutcome` record mirroring the source's
  control flow (in the source, the first `except IOError:` handler
  prints and then executes `return`).
-/

namespace TaskManager

/-- A naive Python `datetime.datetime` value. -/
structure PyDateTime where
  year : Nat
  month : Nat
  day : Nat
  hour : Nat
  minute : Nat
  second : Nat
  microsecond : Nat
deriving DecidableEq

/-- Python's ordering on naive datetimes: lexicographic on the
components, most significant first. -/
def dtLtB (a b : PyDateTime) : Bool :=
  if a.year ≠ b.year then a.year < b.year
  else if a.month ≠ b.month then a.month < b.month
  else if a.day ≠ b.day then a.day < b.day
  else if a.hour ≠ b.hour then a.hour < b.hour
  else if a.minute ≠ b.minute then a.minute < b.minute
  else if a.second ≠ b.second then a.second < b.second
  else a.microsecond < b.microsecond

/-- Gregorian leap-year rule used by `datetime`. -/
def isLeapYear (y : Nat) : Bool :=
  y % 4 = 0 && (y % 100 ≠ 0 || y % 400 = 0)

/-- Number of days in a month, as validated by the `datetime`
constructor. -/
def daysInMonth (y m : Nat) : Nat :=
  if m = 2 then (if isLeapYear y then 29 else 28)
  else if m = 4 ∨ m = 6 ∨ m = 9 ∨ m = 11 then 30
  else 31

/-- ASCII decimal digit, the digits matched by `strptime`'s patterns. -/
def isDigitChar (c : Char) : Bool :=
  '0' ≤ c && c ≤ '9'

/-- Decimal value of a digit string. -/
def digitsToNat (l : List Char) : Nat :=
  l.foldl (fun n c => n * 10 + (c.toNat - '0'.toNat)) 0

/-- Split a character list at every occurrence of a single separator
character, keeping empty pieces (Python `str.split(sep)`). -/
def splitOnCharAux (sep : Char) : List Char → List Char → List (List Char)
  | [], acc => [acc.reverse]
  | c :: cs, acc =>
      if c = sep then acc.reverse :: splitOnCharAux sep cs []
      else splitOnCharAux sep cs (c :: acc)

def splitOnChar (sep : Char) (l : List Char) : List (List Char) :=
  splitOnCharAux sep l []

/-- Validity check performed by the `datetime` constructor after
`strptime` has matched the three numeric fields. -/
def validYMD (y m d : Nat) : Bool :=
  1 ≤ y && y ≤ 9999 && 1 ≤ m && m ≤ 12 && 1 ≤ d && d ≤ daysInMonth y m

/-- Model of `datetime.strptime(s, "%Y-%m-%d")`, returning the
(year, month, day) triple on success and `none` where Python raises
`ValueError`. -/
def parseDate (s : String) : Option (Nat × Nat × Nat) :=
  match splitOnChar '-' s.data with
  | [ys, ms, ds] =>
      if ys.length = 4 && ys.all isDigitChar &&
         1 ≤ ms.length && ms.length ≤ 2 && ms.all isDigitChar &&
         1 ≤ ds.length && ds.length ≤ 2 && ds.all isDigitChar then
        let y := digitsToNat ys
        let m := digitsToNat ms
        let d := digitsToNat ds
        if validYMD y m d then some (y, m, d) else none
      else none
  | _ => none

/-- The function `is_overdue` from the source: parse the due date; on success
compare the parsed date (at midnight) with the current timestamp; on
`ValueError` return `False`. -/
def is_overdue (due_date : String) (now : PyDateTime) : Bool :=
  match parseDate due_date with
  | some (y, m, d) => dtLtB ⟨y, m, d, 0, 0, 0, 0⟩ now
  | none => false

/-- A task record, as produced by `load_tasks`. -/
structure Task where
  username : String
  title : String
  description : String
  assigned_date : String
  due_date : String
  completed : String
deriving DecidableEq

/-- Round half to even to an integer. -/
def rne (q : ℚ) : ℤ :=
  if Int.fract q < 1/2 then ⌊q⌋
  else if 1/2 < Int.fract q then ⌊q⌋ + 1
  else if ⌊q⌋ % 2 = 0 then ⌊q⌋ else ⌊q⌋ + 1

/-- Python's `round(x, 2)`: round half to even at two decimal places. -/
def round2 (q : ℚ) : ℚ :=
  (rne (q * 100) : ℚ) / 100

/-- Result record of `calculate_task_stats`. -/
structure TaskStats where
  total : Nat
  completed : Nat
  uncompleted : Nat
  overdue_uncompleted : Nat
  incomplete_percent : ℚ
  overdue_percent : ℚ
deriving DecidableEq

/-- The function `calculate_task_stats` from the source. -/
def calculate_task_stats (tasks : List Task) (now : PyDateTime) : TaskStats :=
  let total_tasks := tasks.length
  let completed := tasks.countP (fun t => t.completed == "Yes")
  let uncompleted := total_tasks - completed
  let overdue_uncompleted :=
    tasks.countP (fun t => t.completed == "No" && is_overdue t.due_date now)
  let incomplete_percent : ℚ :=
    if total_tasks ≠ 0 then (uncompleted : ℚ) / (total_tasks : ℚ) * 100 else 0
  let overdue_percent : ℚ :=
    if total_tasks ≠ 0 then (overdue_uncompleted : ℚ) / (total_tasks : ℚ) * 100 else 0
  { total := total_tasks
    completed := completed
    uncompleted := uncompleted
    overdue_uncompleted := overdue_uncompleted
    incomplete_percent := round2 incomplete_percent
    overdue_percent := round2 overdue_percent }

/-- Mutable per-user counters accumulated by the task loop of
`calculate_user_stats`. -/
structure UCount where
  tasks : Nat
  completed : Nat
  overdue : Nat
deriving DecidableEq

/-- The dictionary comprehension initializing a zeroed record for every
registered username.  The dictionary is modelled as a function to
`Option UCount`, `none` meaning the key is absent. -/
def initStats (users : List String) : String → Option UCount :=
  fun u => if u ∈ users then some ⟨0, 0, 0⟩ else none

/-- One iteration of the task loop of `calculate_user_stats`:
if the task's username is a key of the dictionary, increment `tasks`,
then increment `completed` if the task is completed, else increment
`overdue` if it is overdue. -/
def applyTask (now : PyDateTime) (m : String → Option UCount) (task : Task) :
    String → Option UCount :=
  match m task.username with
  | none => m
  | some s =>
      let s' : UCount :=
        if task.completed = "Yes" then
          ⟨s.tasks + 1, s.completed + 1, s.overdue⟩
        else if is_overdue task.due_date now then
          ⟨s.tasks + 1, s.completed, s.overdue + 1⟩
        else
          ⟨s.tasks + 1, s.completed, s.overdue⟩
      fun u => if u = task.username then some s' else m u

/-- A finished per-user record: counters plus the four rounded
percentages. -/
structure UStatFull where
  tasks : Nat
  completed : Nat
  overdue : Nat
  percent_total : ℚ
  percent_completed : ℚ
  percent_incomplete : ℚ
  percent_overdue : ℚ
deriving DecidableEq

/-- The percentage pass of `calculate_user_stats` for one user. -/
def finalizeUser (total_tasks : Nat) (s : UCount) : UStatFull :=
  let pt : ℚ :=
    if total_tasks ≠ 0 then (s.tasks : ℚ) / (total_tasks : ℚ) * 100 else 0
  let pc : ℚ :=
    if s.tasks ≠ 0 then (s.completed : ℚ) / (s.tasks : ℚ) * 100 else 0
  let pi : ℚ :=
    if s.tasks ≠ 0 then ((s.tasks : ℚ) - (s.completed : ℚ)) / (s.tasks : ℚ) * 100
    else 0
  let po : ℚ :=
    if s.tasks ≠ 0 then (s.overdue : ℚ) / (s.tasks : ℚ) * 100 else 0
  { tasks := s.tasks
    completed := s.completed
    overdue := s.overdue
    percent_total := round2 pt
    percent_completed := round2 pc
    percent_incomplete := round2 pi
    percent_overdue := round2 po }

/-- Result record of `calculate_user_stats`. -/
structure UserStatsResult where
  total_users : Nat
  total_tasks : Nat
  user_stats : String → Option UStatFull

/-- The function `calculate_user_stats` from the source.  The `users` dictionary is
represented by its (distinct) key list. -/
def calculate_user_stats (tasks : List Task) (users : List String)
    (now : PyDateTime) : UserStatsResult :=
  let total_tasks := tasks.length
  let total_users := users.length
  let m := tasks.foldl (applyTask now) (initStats users)
  { total_users := total_users
    total_tasks := total_tasks
    user_stats := fun u => (m u).map (finalizeUser total_tasks) }

/-- Observable outcome of one call to `generate_reports`: the computed
statistics, which file writes were attempted and succeeded, and the
messages printed. -/
structure ReportOutcome where
  task_stats : TaskStats
  user_stats : UserStatsResult
  taskAttempted : Bool
  taskWritten : Bool
  userAttempted : Bool
  userWritten : Bool
  messages : List String

/-- The function `generate_reports` from the source.  The environment's two possible
`IOError`s are supplied as booleans (`taskWriteFails` for the
`task_overview.txt` write, `userWriteFails` for `user_overview.txt`).
The control flow mirrors the source: the `task_overview.txt` write is
attempted first; on `IOError` the handler prints an error message and
executes `return`, so the `user_overview.txt` write is not attempted;
otherwise the `user_overview.txt` write is attempted, its own `IOError`
handler printing a message and returning. -/
def generate_reports (tasks : List Task) (users : List String)
    (now : PyDateTime) (taskWriteFails userWriteFails : Bool) : ReportOutcome :=
  let ts := calculate_task_stats tasks now
  let us := calculate_user_stats tasks users now
  if taskWriteFails then
    { task_stats := ts, user_stats := us
      taskAttempted := true, taskWritten := false
      userAttempted := false, userWritten := false
      messages := ["Error: Could not write to task_overview.txt"] }
  else if userWriteFails then
    { task_stats := ts, user_stats := us
      taskAttempted := true, taskWritten := true
      userAttempted := true, userWritten := false
      messages := ["Error: Could not write to user_overview.txt"] }
  else
    { task_stats := ts, user_stats := us
      taskAttempted := true, taskWritten := true
      userAttempted := true, userWritten := true
      messages := ["Reports generated: task_overview.txt, user_overview.txt"] }

/-- The field delimiter `", "` used by the storage format. -/
def sepChars : List Char := [',', ' ']

/-- The line written for one task by `save_tasks`. -/
def serializeTask (t : Task) : List Char :=
  t.username.data ++ sepChars ++ t.title.data ++ sepChars ++
  t.description.data ++ sepChars ++ t.assigned_date.data ++ sepChars ++
  t.due_date.data ++ sepChars ++ t.completed.data

/-- The function `save_tasks` from the source: the full contents written to
`tasks.txt`, one line per task, each terminated by a newline. -/
def save_tasks (tasks : List Task) : List Char :=
  (tasks.map (fun t => serializeTask t ++ ['\n'])).flatten

/-- Whether the delimiter `", "` occurs as a contiguous substring. -/
def containsSep : List Char → Bool
  | [] => false
  | [_] => false
  | c1 :: c2 :: cs => (c1 = ',' && c2 = ' ') || containsSep (c2 :: cs)

/-- Python's `line.split(", ")`: split at every (leftmost-first,
non-overlapping) occurrence of the two-character delimiter. -/
def splitSepAux : List Char → List Char → List (List Char)
  | [], acc => [acc.reverse]
  | [c], acc => [(c :: acc).reverse]
  | c1 :: c2 :: cs, acc =>
      if c1 = ',' ∧ c2 = ' ' then acc.reverse :: splitSepAux cs []
      else splitSepAux (c2 :: cs) (c1 :: acc)

def splitSep (l : List Char) : List (List Char) :=
  splitSepAux l []

/-- The set of characters removed by Python's `str.strip()`: the
characters for which `str.isspace()` holds — the ASCII whitespace
controls U+0009..U+000D and U+001C..U+001F, the space, NEL (U+0085),
NBSP (U+00A0), and the Unicode space characters U+1680,
U+2000..U+200A, U+2028, U+2029, U+202F, U+205F and U+3000. -/
def pyWhitespace (c : Char) : Bool :=
  (0x09 ≤ c.toNat && c.toNat ≤ 0x0D) ||
  (0x1C ≤ c.toNat && c.toNat ≤ 0x1F) ||
  c.toNat = 0x20 || c.toNat = 0x85 || c.toNat = 0xA0 ||
  c.toNat = 0x1680 ||
  (0x2000 ≤ c.toNat && c.toNat ≤ 0x200A) ||
  c.toNat = 0x2028 || c.toNat = 0x2029 || c.toNat = 0x202F ||
  c.toNat = 0x205F || c.toNat = 0x3000

/-- Python's `str.strip()`: drop `pyWhitespace` characters from both
ends. -/
def trimL (l : List Char) : List Char :=
  ((l.dropWhile pyWhitespace).reverse.dropWhile pyWhitespace).reverse

/-- Iterating over the lines of a text file opened in text mode:
lines are terminated by `'\n'`, `'\r'` or `"\r\n"` (universal
newlines); a final fragment without terminator is still a line; a
trailing terminator does not produce an extra empty line. -/
def splitLinesAux : List Char → List Char → List (List Char)
  | [], acc => if acc.isEmpty then [] else [acc.reverse]
  | [c], acc =>
      if c = '\n' ∨ c = '\r' then [acc.reverse] else [(c :: acc).reverse]
  | c1 :: c2 :: cs, acc =>
      if c1 = '\n' then acc.reverse :: splitLinesAux (c2 :: cs) []
      else if c1 = '\r' then
        if c2 = '\n' then acc.reverse :: splitLinesAux cs []
        else acc.reverse :: splitLinesAux (c2 :: cs) []
      else splitLinesAux (c2 :: cs) (c1 :: acc)

def splitLines (l : List Char) : List (List Char) :=
  splitLinesAux l []

/-- Parsing of a single line by `load_tasks`: strip the line, split on
`", "`, and keep it only if exactly six fields result. -/
def parseTaskLine (line : List Char) : Option Task :=
  match splitSep (trimL line) with
  | [u, ti, de, ad, dd, co] =>
      some ⟨String.mk u, String.mk ti, String.mk de,
            String.mk ad, String.mk dd, String.mk co⟩
  | _ => none

/-- The function `load_tasks` from the source: every well-formed line becomes a
task, malformed lines are skipped with a warning. -/
def load_tasks (content : List Char) : List Task :=
  (splitLines content).filterMap parseTaskLine

/-- The six fields of a task, in storage order. -/
def taskFields (t : Task) : List (List Char) :=
  [t.username.data, t.title.data, t.description.data,
   t.assigned_date.data, t.due_date.data, t.completed.data]

/-- A field head position is safe if it does not start with a
character that `str.strip()` removes (an empty field is safe). -/
def headOK (l : List Char) : Bool :=
  match l.head? with
  | some c => !(pyWhitespace c)
  | none => true

/-- A field tail position is safe if it does not end with a character
that `str.strip()` removes (an empty field is safe). -/
def lastOK (l : List Char) : Bool :=
  match l.getLast? with
  | some c => !(pyWhitespace c)
  | none => true

/-- A field that survives the storage format: it contains neither the
delimiter `", "` nor a line-break character. -/
def goodField (f : List Char) : Bool :=
  !containsSep f && !(decide ('\n' ∈ f)) && !(decide ('\r' ∈ f))

/-- A task whose record line survives `save_tasks` followed by
`load_tasks` unchanged: every field is a `goodField`, the username
does not begin with whitespace, and the completed field is nonempty
and does not end with whitespace. -/
def goodTask (t : Task) : Bool :=
  (taskFields t).all goodField && headOK t.username.data &&
  !(decide (t.completed.data = [])) && lastOK t.completed.data

/-! ### Helper lemmas about rounding -/

theorem rne_intCast (z : ℤ) : rne (z : ℚ) = z := by
  unfold rne
  rw [Int.fract_intCast, Int.floor_intCast]
  norm_num

theorem rne_int_add (k : ℤ) (q : ℚ) (hk : k % 2 = 0) :
    rne ((k : ℚ) + q) = k + rne q := by
  unfold rne
  rw [Int.fract_int_add, Int.floor_int_add]
  split_ifs <;> omega

theorem rne_neg_add (q : ℚ) : rne q + rne (-q) = 0 := by
  by_cases h0 : Int.fract q = 0
  · have hz : q = ((⌊q⌋ : ℤ) : ℚ) := by
      have h1 := Int.floor_add_fract q
      rw [h0, add_zero] at h1
      exact h1.symm
    rw [hz]
    have hneg : -(((⌊q⌋ : ℤ) : ℚ)) = ((-⌊q⌋ : ℤ) : ℚ) := by push_cast; ring
    rw [hneg, rne_intCast, rne_intCast]
    omega
  · have hf0 : 0 < Int.fract q := lt_of_le_of_ne (Int.fract_nonneg q) (Ne.symm h0)
    have hf1 : Int.fract q < 1 := Int.fract_lt_one q
    have hneg : Int.fract (-q) = 1 - Int.fract q := Int.fract_neg h0
    have hfloor : ⌊-q⌋ = -⌊q⌋ - 1 := by
      have h1 := Int.floor_add_fract q
      have h2 := Int.floor_add_fract (-q)
      rw [hneg] at h2
      have h3 : (⌊-q⌋ : ℚ) = ((-⌊q⌋ - 1 : ℤ) : ℚ) := by push_cast; linarith
      exact_mod_cast h3
    unfold rne
    rw [hneg, hfloor]
    split_ifs <;> first | omega | linarith

theorem round2_add_round2_compl (x : ℚ) :
    round2 x + round2 (100 - x) = 100 := by
  have h1 : (100 - x) * 100 = ((10000 : ℤ) : ℚ) + -(x * 100) := by
    push_cast
    ring
  have h2 : rne ((100 - x) * 100) = 10000 + rne (-(x * 100)) := by
    rw [h1, rne_int_add 10000 (-(x * 100)) (by norm_num)]
  have h3 := rne_neg_add (x * 100)
  have h4 : ((rne (x * 100) : ℤ) : ℚ) + ((rne (-(x * 100)) : ℤ) : ℚ) = 0 := by
    exact_mod_cast congrArg (fun z : ℤ => (z : ℚ)) h3
  unfold round2
  rw [h2]
  push_cast
  linarith

theorem round2_zero : round2 0 = 0 := by
  have : ((0 : ℤ) : ℚ) = (0 : ℚ) * 100 := by norm_num
  unfold round2
  rw [← this, rne_intCast]
  norm_num

/-! ### Characterization of the per-user accumulation loop -/

theorem foldl_applyTask_none (now : PyDateTime) :
    ∀ (tasks : List Task) (m : String → Option UCount) (u : String),
      m u = none → tasks.foldl (applyTask now) m u = none := by
  intro tasks
  induction tasks with
  | nil => intro m u h; simpa using h
  | cons t rest ih =>
      intro m u h
      rw [List.foldl_cons]
      apply ih
      unfold applyTask
      cases hmt : m t.username with
      | none => simpa using h
      | some s =>
          simp only
          by_cases hu : u = t.username
          · rw [hu] at h
            rw [h] at hmt
            cases hmt
          · simp [hu, h]

theorem foldl_applyTask_some (now : PyDateTime) :
    ∀ (tasks : List Task) (m : String → Option UCount) (u : String) (s : UCount),
      m u = some s →
      tasks.foldl (applyTask now) m u =
        some ⟨s.tasks + tasks.countP (fun t => t.username == u),
              s.completed +
                tasks.countP (fun t => t.username == u && t.completed == "Yes"),
              s.overdue +
                tasks.countP (fun t =>
                  t.username == u && !(t.completed == "Yes") &&
                    is_overdue t.due_date now)⟩ := by
  intro tasks
  induction tasks with
  | nil => intro m u s h; simpa using h
  | cons t rest ih =>
      intro m u s h
      rw [List.foldl_cons]
      by_cases hu : t.username = u
      · have hmt : m t.username = some s := by rw [hu]; exact h
        have happ : applyTask now m t u =
            some (if t.completed = "Yes" then
                    ⟨s.tasks + 1, s.completed + 1, s.overdue⟩
                  else if is_overdue t.due_date now then
                    ⟨s.tasks + 1, s.completed, s.overdue + 1⟩
                  else ⟨s.tasks + 1, s.completed, s.overdue⟩) := by
          unfold applyTask
          rw [hmt]
          simp [hu]
        by_cases hc : t.completed = "Yes"
        · rw [ih _ _ _ (by rw [happ, if_pos hc])]
          simp [List.countP_cons, hu, hc]
          omega
        · by_cases ho : is_overdue t.due_date now
          · rw [ih _ _ _ (by rw [happ, if_neg hc, if_pos ho])]
            simp [List.countP_cons, hu, hc, ho]
            omega
          · rw [ih _ _ _ (by rw [happ, if_neg hc, if_neg ho])]
            simp [List.countP_cons, hu, hc, ho]
            omega
      · have happ : applyTask now m t u = m u := by
          unfold applyTask
          cases hmt : m t.username with
          | none => simp
          | some s₀ =>
              have hne : ¬(u = t.username) := fun h' => hu h'.symm
              simp [hne]
        rw [ih _ _ _ (by rw [happ]; exact h)]
        simp [List.countP_cons, hu]

/-! ### Lemmas about the storage round trip -/

theorem containsSep_two (c1 c2 : Char) (cs : List Char) :
    containsSep (c1 :: c2 :: cs) =
      ((c1 = ',' && c2 = ' ') || containsSep (c2 :: cs)) := rfl

theorem splitSepAux_no :
    ∀ (l acc : List Char), containsSep l = false →
      splitSepAux l acc = [acc.reverse ++ l]
  | [], acc, _ => by simp [splitSepAux]
  | [c], acc, _ => by simp [splitSepAux]
  | c1 :: c2 :: cs, acc, h => by
      rw [containsSep_two] at h
      have h1 : ¬(c1 = ',' ∧ c2 = ' ') := by
        intro hc
        simp [hc.1, hc.2] at h
      have h2 : containsSep (c2 :: cs) = false := by
        rcases Bool.or_eq_false_iff.mp h with ⟨_, h2⟩
        exact h2
      show (if c1 = ',' ∧ c2 = ' ' then _ else _) = _
      rw [if_neg h1, splitSepAux_no (c2 :: cs) (c1 :: acc) h2]
      simp

theorem splitSepAux_cons_sep (rest acc : List Char) :
    splitSepAux (',' :: ' ' :: rest) acc = acc.reverse :: splitSepAux rest [] := by
  show (if (',' : Char) = ',' ∧ (' ' : Char) = ' ' then _ else _) = _
  rw [if_pos ⟨rfl, rfl⟩]

theorem splitSepAux_sep :
    ∀ (f rest acc : List Char), containsSep f = false →
      splitSepAux (f ++ ',' :: ' ' :: rest) acc =
        (acc.reverse ++ f) :: splitSepAux rest []
  | [], rest, acc, _ => by
      simp only [List.nil_append, List.append_nil]
      exact splitSepAux_cons_sep rest acc
  | [a], rest, acc, _ => by
      have h1 : ¬(a = ',' ∧ (',' : Char) = ' ') := by simp
      show (if a = ',' ∧ (',' : Char) = ' ' then _ else _) = _
      rw [if_neg h1, splitSepAux_cons_sep rest (a :: acc)]
      simp
  | a :: b :: f', rest, acc, h => by
      rw [containsSep_two] at h
      have h1 : ¬(a = ',' ∧ b = ' ') := by
        intro hc
        simp [hc.1, hc.2] at h
      have h2 : containsSep (b :: f') = false := by
        rcases Bool.or_eq_false_iff.mp h with ⟨_, h2⟩
        exact h2
      show (if a = ',' ∧ b = ' ' then _ else _) = _
      rw [if_neg h1]
      show splitSepAux ((b :: f') ++ ',' :: ' ' :: rest) (a :: acc) = _
      rw [splitSepAux_sep (b :: f') rest (a :: acc) h2]
      simp

theorem trimL_eq_self (l : List Char)
    (hh : headOK l = true) (hl : lastOK l = true) :
    trimL l = l := by
  have h1 : l.dropWhile pyWhitespace = l := by
    cases l with
    | nil => rfl
    | cons c cs =>
        have hc : pyWhitespace c = false := by
          unfold headOK at hh
          simpa using hh
        simp [List.dropWhile_cons, hc]
  have h2 : l.reverse.dropWhile pyWhitespace = l.reverse := by
    cases hrev : l.reverse with
    | nil => rfl
    | cons c cs =>
        have hc : l.getLast? = some c := by
          rw [← List.head?_reverse, hrev]
          rfl
        have hcw : pyWhitespace c = false := by
          unfold lastOK at hl
          rw [hc] at hl
          simpa using hl
        simp [List.dropWhile_cons, hcw]
  unfold trimL
  rw [h1, h2, List.reverse_reverse]

theorem splitLinesAux_line :
    ∀ (line rest acc : List Char), '\n' ∉ line → '\r' ∉ line →
      splitLinesAux (line ++ '\n' :: rest) acc =
        (acc.reverse ++ line) :: splitLinesAux rest []
  | [], rest, acc, _, _ => by
      cases rest with
      | nil => simp [splitLinesAux]
      | cons r rs => simp [splitLinesAux]
  | a :: line', rest, acc, hn, hr => by
      have ha_n : a ≠ '\n' := fun h => hn (h ▸ List.mem_cons_self a line')
      have ha_r : a ≠ '\r' := fun h => hr (h ▸ List.mem_cons_self a line')
      have hn' : '\n' ∉ line' := fun h => hn (List.mem_cons_of_mem a h)
      have hr' : '\r' ∉ line' := fun h => hr (List.mem_cons_of_mem a h)
      cases hE : line' ++ '\n' :: rest with
      | nil => exact absurd (List.append_eq_nil.mp hE).2 (by simp)
      | cons c2 cs =>
          have : splitLinesAux (a :: c2 :: cs) acc =
              splitLinesAux (c2 :: cs) (a :: acc) := by
            show (if a = '\n' then _ else if a = '\r' then _ else _) = _
            rw [if_neg ha_n, if_neg ha_r]
          rw [List.cons_append, hE, this, ← hE,
              splitLinesAux_line line' rest (a :: acc) hn' hr']
          simp

theorem splitLines_save :
    ∀ (tasks : List Task),
      (∀ t ∈ tasks, '\n' ∉ serializeTask t ∧ '\r' ∉ serializeTask t) →
      splitLines (save_tasks tasks) = tasks.map serializeTask := by
  intro tasks
  induction tasks with
  | nil => intro; rfl
  | cons t rest ih =>
      intro h
      have hsave : save_tasks (t :: rest) =
          serializeTask t ++ '\n' :: save_tasks rest := by
        unfold save_tasks
        simp
      obtain ⟨hn, hr⟩ := h t (List.mem_cons_self t rest)
      unfold splitLines
      rw [hsave, splitLinesAux_line _ _ _ hn hr]
      simp only [List.reverse_nil, List.nil_append, List.map_cons]
      rw [show splitLinesAux (save_tasks rest) [] = splitLines (save_tasks rest) from rfl,
          ih (fun t' ht' => h t' (List.mem_cons_of_mem t ht'))]

theorem serializeTask_shape (t : Task) :
    serializeTask t =
      t.username.data ++ ',' :: ' ' :: (t.title.data ++ ',' :: ' ' ::
        (t.description.data ++ ',' :: ' ' :: (t.assigned_date.data ++ ',' :: ' ' ::
          (t.due_date.data ++ ',' :: ' ' :: t.completed.data)))) := by
  unfold serializeTask sepChars
  simp

theorem splitSep_serialize (t : Task)
    (h : ∀ f ∈ taskFields t, containsSep f = false) :
    splitSep (serializeTask t) = taskFields t := by
  have hu := h t.username.data (by simp [taskFields])
  have hti := h t.title.data (by simp [taskFields])
  have hde := h t.description.data (by simp [taskFields])
  have had := h t.assigned_date.data (by simp [taskFields])
  have hdd := h t.due_date.data (by simp [taskFields])
  have hco := h t.completed.data (by simp [taskFields])
  unfold splitSep
  rw [serializeTask_shape,
      splitSepAux_sep _ _ _ hu,
      splitSepAux_sep _ _ _ hti,
      splitSepAux_sep _ _ _ hde,
      splitSepAux_sep _ _ _ had,
      splitSepAux_sep _ _ _ hdd,
      splitSepAux_no _ _ hco]
  simp [taskFields]

theorem noNL_serialize (t : Task)
    (h : ∀ f ∈ taskFields t, '\n' ∉ f ∧ '\r' ∉ f) :
    '\n' ∉ serializeTask t ∧ '\r' ∉ serializeTask t := by
  have hu := h t.username.data (by simp [taskFields])
  have hti := h t.title.data (by simp [taskFields])
  have hde := h t.description.data (by simp [taskFields])
  have had := h t.assigned_date.data (by simp [taskFields])
  have hdd := h t.due_date.data (by simp [taskFields])
  have hco := h t.completed.data (by simp [taskFields])
  rw [serializeTask_shape]
  constructor
  · intro hmem
    simp only [List.mem_append, List.mem_cons] at hmem
    rcases hmem with h1 | h2
    · exact hu.1 h1
    rcases h2 with h2 | h2
    · exact absurd h2 (by decide)
    rcases h2 with h2 | h2
    · exact absurd h2 (by decide)
    rcases h2 with h2 | h2
    · exact hti.1 h2
    rcases h2 with h2 | h2
    · exact absurd h2 (by decide)
    rcases h2 with h2 | h2
    · exact absurd h2 (by decide)
    rcases h2 with h2 | h2
    · exact hde.1 h2
    rcases h2 with h2 | h2
    · exact absurd h2 (by decide)
    rcases h2 with h2 | h2
    · exact absurd h2 (by decide)
    rcases h2 with h2 | h2
    · exact had.1 h2
    rcases h2 with h2 | h2
    · exact absurd h2 (by decide)
    rcases h2 with h2 | h2
    · exact absurd h2 (by decide)
    rcases h2 with h2 | h2
    · exact hdd.1 h2
    rcases h2 with h2 | h2
    · exact absurd h2 (by decide)
    rcases h2 with h2 | h2
    · exact absurd h2 (by decide)
    · exact hco.1 h2
  · intro hmem
    simp only [List.mem_append, List.mem_cons] at hmem
    rcases hmem with h1 | h2
    · exact hu.2 h1
    rcases h2 with h2 | h2
    · exact absurd h2 (by decide)
    rcases h2 with h2 | h2
    · exact absurd h2 (by decide)
    rcases h2 with h2 | h2
    · exact hti.2 h2
    rcases h2 with h2 | h2
    · exact absurd h2 (by decide)
    rcases h2 with h2 | h2
    · exact absurd h2 (by decide)
    rcases h2 with h2 | h2
    · exact hde.2 h2
    rcases h2 with h2 | h2
    · exact absurd h2 (by decide)
    rcases h2 with h2 | h2
    · exact absurd h2 (by decide)
    rcases h2 with h2 | h2
    · exact had.2 h2
    rcases h2 with h2 | h2
    · exact absurd h2 (by decide)
    rcases h2 with h2 | h2
    · exact absurd h2 (by decide)
    rcases h2 with h2 | h2
    · exact hdd.2 h2
    rcases h2 with h2 | h2
    · exact absurd h2 (by decide)
    rcases h2 with h2 | h2
    · exact absurd h2 (by decide)
    · exact hco.2 h2

theorem headOK_serialize (t : Task) (h : headOK t.username.data = true) :
    headOK (serializeTask t) = true := by
  rw [serializeTask_shape]
  cases hu : t.username.data with
  | nil => rfl
  | cons c cs =>
      rw [hu] at h
      unfold headOK at h ⊢
      simpa using h

theorem lastOK_serialize (t : Task) (hne : t.completed.data ≠ [])
    (h : lastOK t.completed.data = true) :
    lastOK (serializeTask t) = true := by
  unfold lastOK at h ⊢
  unfold serializeTask
  rw [List.getLast?_append_of_ne_nil _ hne]
  exact h

theorem goodTask_parts (t : Task) (hg : goodTask t = true) :
    (∀ f ∈ taskFields t, containsSep f = false ∧ '\n' ∉ f ∧ '\r' ∉ f) ∧
    headOK t.username.data = true ∧ t.completed.data ≠ [] ∧
    lastOK t.completed.data = true := by
  unfold goodTask at hg
  simp only [Bool.and_eq_true, List.all_eq_true, Bool.not_eq_true',
    decide_eq_false_iff_not] at hg
  obtain ⟨⟨⟨hall, hhead⟩, hne⟩, hlast⟩ := hg
  refine ⟨?_, hhead, hne, hlast⟩
  intro f hf
  have hgf := hall f hf
  unfold goodField at hgf
  simp only [Bool.and_eq_true, Bool.not_eq_true', decide_eq_false_iff_not] at hgf
  exact ⟨hgf.1.1, hgf.1.2, hgf.2⟩

theorem parseTaskLine_serialize (t : Task) (hg : goodTask t = true) :
    parseTaskLine (serializeTask t) = some t := by
  obtain ⟨hfields, hhead, hne, hlast⟩ := goodTask_parts t hg
  have htrim : trimL (serializeTask t) = serializeTask t :=
    trimL_eq_self _ (headOK_serialize t hhead) (lastOK_serialize t hne hlast)
  unfold parseTaskLine
  rw [htrim, splitSep_serialize t (fun f hf => (hfields f hf).1)]
  show some (⟨⟨t.username.data⟩, ⟨t.title.data⟩, ⟨t.description.data⟩,
    ⟨t.assigned_date.data⟩, ⟨t.due_date.data⟩, ⟨t.completed.data⟩⟩ : Task) = some t
  rfl

theorem filterMap_parse_serialize :
    ∀ (l : List Task), (∀ t ∈ l, goodTask t = true) →
      l.filterMap (fun t => parseTaskLine (serializeTask t)) = l := by
  intro l
  induction l with
  | nil => intro; rfl
  | cons x xs ih =>
      intro hl
      have hx := parseTaskLine_serialize x (hl x (List.mem_cons_self x xs))
      simp only [List.filterMap_cons, hx]
      rw [ih (fun y hy => hl y (List.mem_cons_of_mem x hy))]

theorem load_save_roundTrip (tasks : List Task)
    (h : ∀ t ∈ tasks, goodTask t = true) :
    load_tasks (save_tasks tasks) = tasks := by
  have hnl : ∀ t ∈ tasks, '\n' ∉ serializeTask t ∧ '\r' ∉ serializeTask t := by
    intro t ht
    exact noNL_serialize t (fun f hf =>
      ⟨((goodTask_parts t (h t ht)).1 f hf).2.1,
       ((goodTask_parts t (h t ht)).1 f hf).2.2⟩)
  unfold load_tasks
  rw [splitLines_save tasks hnl, List.filterMap_map, Function.comp_def]
  exact filterMap_parse_serialize tasks h

/-! ### Further helpers -/

theorem user_stats_eq (tasks : List Task) (users : List String)
    (now : PyDateTime) (u : String) :
    (calculate_user_stats tasks users now).user_stats u =
      (tasks.foldl (applyTask now) (initStats users) u).map
        (finalizeUser tasks.length) := rfl

theorem fold_counts (tasks : List Task) (users : List String)
    (now : PyDateTime) (u : String) (hu : u ∈ users) :
    tasks.foldl (applyTask now) (initStats users) u =
      some ⟨tasks.countP (fun t => t.username == u),
            tasks.countP (fun t => t.username == u && t.completed == "Yes"),
            tasks.countP (fun t =>
              t.username == u && !(t.completed == "Yes") &&
                is_overdue t.due_date now)⟩ := by
  have hinit : initStats users u = some ⟨0, 0, 0⟩ := by
    unfold initStats
    rw [if_pos hu]
  rw [foldl_applyTask_some now tasks (initStats users) u ⟨0, 0, 0⟩ hinit]
  simp

theorem finalizeUser_zero (n : Nat) :
    finalizeUser n ⟨0, 0, 0⟩ = ⟨0, 0, 0, 0, 0, 0, 0⟩ := by
  unfold finalizeUser
  by_cases hn : n = 0 <;> simp [hn, round2_zero]

theorem countP_pair_le (l : List Task) (pA pC pD : Task → Bool) :
    l.countP (fun t => pA t && pC t) +
      l.countP (fun t => pA t && !(pC t) && pD t) ≤ l.countP pA := by
  induction l with
  | nil => simp
  | cons t rest ih =>
      simp only [List.countP_cons]
      by_cases h1 : pA t = true <;> by_cases h2 : pC t = true <;>
        by_cases h3 : pD t = true <;> simp [h1, h2, h3] <;> omega

/-! ### Concrete fixtures used by witnesses and counterexamples -/

/-- A fixed "current timestamp". -/
def dt0 : PyDateTime := ⟨2024, 6, 15, 10, 30, 0, 0⟩

def taskYes : Task := ⟨"alice", "t1", "d1", "2024-01-01", "2024-12-31", "Yes"⟩

def taskNoPast : Task := ⟨"alice", "t2", "d2", "2024-01-01", "2024-01-05", "No"⟩

def taskNoFuture : Task := ⟨"bob", "t3", "d3", "2024-01-01", "2024-12-31", "No"⟩

def taskCharlie : Task := ⟨"charlie", "t4", "d4", "2024-01-01", "2024-01-02", "Yes"⟩

/-- A task whose completion flag is neither "Yes" nor "No", with a past
due date. -/
def taskLower : Task := ⟨"alice", "t5", "d5", "2024-01-01", "2024-01-05", "yes"⟩

/-- A task whose username begins with a space: no field contains the
delimiter, yet `line.strip()` removes the space on reload. -/
def taskWS : Task := ⟨" alice", "t", "d", "2024-01-01", "2024-01-02", "No"⟩

def scTasks : List Task := [taskYes, taskNoPast, taskNoFuture, taskCharlie]

def scUsers : List String := ["alice", "bob", "admin"]

/-! ### Claims -/

/-- C1 (counterexample): the claim says that when the `task_overview.txt`
write fails with an I/O error, the `user_overview.txt` write is still
attempted.  On the code it is not: the first `except IOError:` handler
prints a message and returns from `generate_reports`, so with a failing
task-overview write the user-overview write is never attempted. -/
theorem c1_write_independence_counterexample :
    (generate_reports [] [] dt0 true false).userAttempted = false ∧
    (generate_reports [] [] dt0 true false).messages =
      ["Error: Could not write to task_overview.txt"] := by
  constructor <;> rfl

/-- C1 (amended): the `task_overview.txt` write is always attempted
first; if it fails, a local failure message is emitted and the whole
report generation is abandoned, so the `user_overview.txt` write is
attempted exactly when the task-overview write succeeds; if the
user-overview write then fails, a local failure message is emitted and
only that file's generation is abandoned (the task overview has already
been written). -/
theorem c1_write_independence_amended :
    ∀ (tasks : List Task) (users : List String) (now : PyDateTime)
      (tFail uFail : Bool),
      (generate_reports tasks users now tFail uFail).taskAttempted = true ∧
      (generate_reports tasks users now tFail uFail).taskWritten = !tFail ∧
      (generate_reports tasks users now tFail uFail).userAttempted = !tFail ∧
      (generate_reports tasks users now tFail uFail).userWritten =
        (!tFail && !uFail) ∧
      (generate_reports tasks users now tFail uFail).messages =
        [if tFail then "Error: Could not write to task_overview.txt"
         else if uFail then "Error: Could not write to user_overview.txt"
         else "Reports generated: task_overview.txt, user_overview.txt"] := by
  intro tasks users now tFail uFail
  cases tFail <;> cases uFail <;>
    exact ⟨rfl, rfl, rfl, rfl, rfl⟩

/-- C2: `is_overdue` returns true iff the due-date string parses as a
YYYY-MM-DD calendar date and that date, at midnight, is strictly
earlier than the current timestamp; whenever the string fails to
parse, it returns false (it never raises). -/
theorem c2_is_overdue_spec :
    ∀ (s : String) (now : PyDateTime),
      (is_overdue s now = true ↔
        ∃ y m d, parseDate s = some (y, m, d) ∧
          dtLtB ⟨y, m, d, 0, 0, 0, 0⟩ now = true) ∧
      (parseDate s = none → is_overdue s now = false) := by
  intro s now
  unfold is_overdue
  cases hp : parseDate s with
  | none => simp
  | some ymd =>
      obtain ⟨y, m, d⟩ := ymd
      constructor
      · constructor
        · intro h
          exact ⟨y, m, d, rfl, h⟩
        · rintro ⟨y', m', d', heq, h⟩
          simp only [Option.some.injEq, Prod.mk.injEq] at heq
          obtain ⟨rfl, rfl, rfl⟩ := heq
          exact h
      · intro hnone
        exact absurd hnone (by simp)

theorem c2_is_overdue_spec_witness :
    parseDate "not-a-date" = none ∧ is_overdue "not-a-date" dt0 = false :=
  ⟨by decide, (c2_is_overdue_spec "not-a-date" dt0).2 (by decide)⟩

/-- C3: `calculate_task_stats` returns `total` = number of tasks,
`completed` = number of tasks with completion flag "Yes",
`uncompleted` = `total - completed` (hence
`completed + uncompleted = total`), and `overdue_uncompleted` = number
of tasks with flag "No" for which the overdue predicate holds. -/
theorem c3_task_stats_counts :
    ∀ (tasks : List Task) (now : PyDateTime),
      (calculate_task_stats tasks now).total = tasks.length ∧
      (calculate_task_stats tasks now).completed =
        (tasks.filter (fun t => t.completed == "Yes")).length ∧
      (calculate_task_stats tasks now).uncompleted =
        (calculate_task_stats tasks now).total -
          (calculate_task_stats tasks now).completed ∧
      (calculate_task_stats tasks now).completed +
          (calculate_task_stats tasks now).uncompleted =
        (calculate_task_stats tasks now).total ∧
      (calculate_task_stats tasks now).overdue_uncompleted =
        (tasks.filter
          (fun t => t.completed == "No" && is_overdue t.due_date now)).length := by
  intro tasks now
  have hle : tasks.countP (fun t => t.completed == "Yes") ≤ tasks.length :=
    List.countP_le_length _
  refine ⟨rfl, ?_, rfl, ?_, ?_⟩
  · exact List.countP_eq_length_filter _ _
  · show tasks.countP (fun t => t.completed == "Yes") +
        (tasks.length - tasks.countP (fun t => t.completed == "Yes")) =
        tasks.length
    omega
  · exact List.countP_eq_length_filter _ _

/-- C4: the percentage fields of `calculate_task_stats` are the rounded
values of `uncompleted/total*100` and `overdue_uncompleted/total*100`,
and when `total = 0` both are exactly 0 (the division branch is never
taken for the empty collection). -/
theorem c4_task_stats_percentages :
    ∀ (tasks : List Task) (now : PyDateTime),
      ((calculate_task_stats tasks now).total = 0 →
        (calculate_task_stats tasks now).incomplete_percent = 0 ∧
        (calculate_task_stats tasks now).overdue_percent = 0) ∧
      ((calculate_task_stats tasks now).total ≠ 0 →
        (calculate_task_stats tasks now).incomplete_percent =
          round2 (((calculate_task_stats tasks now).uncompleted : ℚ) /
            ((calculate_task_stats tasks now).total : ℚ) * 100) ∧
        (calculate_task_stats tasks now).overdue_percent =
          round2 (((calculate_task_stats tasks now).overdue_uncompleted : ℚ) /
            ((calculate_task_stats tasks now).total : ℚ) * 100)) := by
  intro tasks now
  constructor
  · intro h0
    have h0' : tasks.length = 0 := h0
    constructor
    · show round2 (if tasks.length ≠ 0 then _ else 0) = 0
      rw [if_neg (by omega), round2_zero]
    · show round2 (if tasks.length ≠ 0 then _ else 0) = 0
      rw [if_neg (by omega), round2_zero]
  · intro h0
    have h0' : tasks.length ≠ 0 := h0
    constructor
    · show round2 (if tasks.length ≠ 0 then _ else 0) = round2 _
      rw [if_pos h0']
      rfl
    · show round2 (if tasks.length ≠ 0 then _ else 0) = round2 _
      rw [if_pos h0']
      rfl

theorem c4_task_stats_percentages_witness :
    ((calculate_task_stats ([] : List Task) dt0).total = 0 ∧
      (calculate_task_stats ([] : List Task) dt0).incomplete_percent = 0 ∧
      (calculate_task_stats ([] : List Task) dt0).overdue_percent = 0) ∧
    ((calculate_task_stats [taskYes] dt0).total ≠ 0 ∧
      (calculate_task_stats [taskYes] dt0).incomplete_percent =
        round2 (((calculate_task_stats [taskYes] dt0).uncompleted : ℚ) /
          ((calculate_task_stats [taskYes] dt0).total : ℚ) * 100)) :=
  ⟨⟨by decide, (c4_task_stats_percentages [] dt0).1 (by decide)⟩,
   ⟨by decide, ((c4_task_stats_percentages [taskYes] dt0).2 (by decide)).1⟩⟩

/-- C5: for every registered user, the per-user record of
`calculate_user_stats` counts every task assigned to that user in
`tasks`, counts a task in `completed` exactly when its flag equals
"Yes", and counts it in `overdue` exactly when its flag differs from
"Yes" and the task is overdue (the `elif`) — so a single task never
increments both `completed` and `overdue`: a completed-but-past-due
task increments only `completed`, and a not-completed, not-overdue
task increments neither. -/
theorem c5_user_loop_counts (tasks : List Task) (users : List String)
    (now : PyDateTime) (u : String) (hu : u ∈ users) :
    ∃ r, (calculate_user_stats tasks users now).user_stats u = some r ∧
      r.tasks = tasks.countP (fun t => t.username == u) ∧
      r.completed =
        tasks.countP (fun t => t.username == u && t.completed == "Yes") ∧
      r.overdue =
        tasks.countP (fun t =>
          t.username == u && !(t.completed == "Yes") &&
            is_overdue t.due_date now) := by
  rw [user_stats_eq, fold_counts tasks users now u hu]
  exact ⟨_, rfl, rfl, rfl, rfl⟩

theorem c5_user_loop_counts_witness :
    "alice" ∈ scUsers ∧
    (∃ r, (calculate_user_stats scTasks scUsers dt0).user_stats "alice" =
        some r ∧
      r.tasks = scTasks.countP (fun t => t.username == "alice") ∧
      r.completed =
        scTasks.countP
          (fun t => t.username == "alice" && t.completed == "Yes") ∧
      r.overdue =
        scTasks.countP (fun t =>
          t.username == "alice" && !(t.completed == "Yes") &&
            is_overdue t.due_date dt0)) :=
  ⟨by decide, c5_user_loop_counts scTasks scUsers dt0 "alice" (by decide)⟩

/-- C6: `calculate_user_stats` returns a record for every registered
username, zeroed when the user has no tasks; usernames outside the
user set have no record; `total_tasks` counts all tasks; and a task
assigned to an unregistered username leaves every per-user record's
counters unchanged while still adding one to `total_tasks`. -/
theorem c6_user_coverage (tasks : List Task) (users : List String)
    (now : PyDateTime) :
    (∀ u ∈ users,
      ∃ r, (calculate_user_stats tasks users now).user_stats u = some r) ∧
    (∀ u ∈ users, (∀ t ∈ tasks, t.username ≠ u) →
      (calculate_user_stats tasks users now).user_stats u =
        some ⟨0, 0, 0, 0, 0, 0, 0⟩) ∧
    (∀ u, u ∉ users →
      (calculate_user_stats tasks users now).user_stats u = none) ∧
    (calculate_user_stats tasks users now).total_tasks = tasks.length ∧
    (∀ t : Task, t.username ∉ users → ∀ u,
      ((calculate_user_stats (t :: tasks) users now).user_stats u).map
          (fun r => (r.tasks, r.completed, r.overdue)) =
        ((calculate_user_stats tasks users now).user_stats u).map
          (fun r => (r.tasks, r.completed, r.overdue)) ∧
      (calculate_user_stats (t :: tasks) users now).total_tasks =
        (calculate_user_stats tasks users now).total_tasks + 1) := by
  refine ⟨?_, ?_, ?_, rfl, ?_⟩
  · intro u hu
    exact ⟨_, by rw [user_stats_eq, fold_counts tasks users now u hu]; rfl⟩
  · intro u hu hno
    have hz1 : tasks.countP (fun t => t.username == u) = 0 := by
      rw [List.countP_eq_zero]
      intro t ht
      simp [hno t ht]
    have hz2 : tasks.countP
        (fun t => t.username == u && t.completed == "Yes") = 0 := by
      rw [List.countP_eq_zero]
      intro t ht
      simp [hno t ht]
    have hz3 : tasks.countP (fun t =>
        t.username == u && !(t.completed == "Yes") &&
          is_overdue t.due_date now) = 0 := by
      rw [List.countP_eq_zero]
      intro t ht
      simp [hno t ht]
    rw [user_stats_eq, fold_counts tasks users now u hu, hz1, hz2, hz3]
    show some (finalizeUser tasks.length ⟨0, 0, 0⟩) = _
    rw [finalizeUser_zero]
  · intro u hu
    have hinit : initStats users u = none := by
      unfold initStats
      rw [if_neg hu]
    rw [user_stats_eq, foldl_applyTask_none now tasks (initStats users) u hinit]
    rfl
  · intro t hnotin u
    refine ⟨?_, rfl⟩
    by_cases hu : u ∈ users
    · have hne : (t.username == u) = false := by
        apply beq_eq_false_iff_ne.mpr
        intro he
        exact hnotin (he ▸ hu)
      rw [user_stats_eq, user_stats_eq,
          fold_counts (t :: tasks) users now u hu,
          fold_counts tasks users now u hu]
      simp only [List.countP_cons, hne, Bool.false_and, Bool.and_self,
        if_false, Nat.add_zero, Option.map_some']
      rfl
    · have hinit : initStats users u = none := by
        unfold initStats
        rw [if_neg hu]
      rw [user_stats_eq, user_stats_eq,
          foldl_applyTask_none now (t :: tasks) (initStats users) u hinit,
          foldl_applyTask_none now tasks (initStats users) u hinit]
      rfl

theorem c6_user_coverage_witness :
    (calculate_user_stats [] ["admin"] dt0).user_stats "admin" =
      some ⟨0, 0, 0, 0, 0, 0, 0⟩ ∧
    (calculate_user_stats [] ["admin"] dt0).user_stats "zed" = none :=
  ⟨(c6_user_coverage [] ["admin"] dt0).2.1 "admin" (by decide) (by simp),
   (c6_user_coverage [] ["admin"] dt0).2.2.1 "zed" (by decide)⟩

/-- C7: for every user record with a positive task count, the rounded
`percent_completed` and `percent_incomplete` sum to exactly 100. -/
theorem c7_percent_sum (tasks : List Task) (users : List String)
    (now : PyDateTime) (u : String) (r : UStatFull)
    (h : (calculate_user_stats tasks users now).user_stats u = some r)
    (ht : 0 < r.tasks) :
    r.percent_completed + r.percent_incomplete = 100 := by
  rw [user_stats_eq] at h
  rw [Option.map_eq_some'] at h
  obtain ⟨s, hs, hr⟩ := h
  subst hr
  have hts : 0 < s.tasks := ht
  have hne : s.tasks ≠ 0 := Nat.pos_iff_ne_zero.mp hts
  have hcast : ((s.tasks : ℚ)) ≠ 0 := Nat.cast_ne_zero.mpr hne
  show round2 (if s.tasks ≠ 0 then (s.completed : ℚ) / (s.tasks : ℚ) * 100 else 0) +
      round2 (if s.tasks ≠ 0 then
        ((s.tasks : ℚ) - (s.completed : ℚ)) / (s.tasks : ℚ) * 100 else 0) = 100
  rw [if_pos hne, if_pos hne]
  have key : ((s.tasks : ℚ) - (s.completed : ℚ)) / (s.tasks : ℚ) * 100 =
      100 - (s.completed : ℚ) / (s.tasks : ℚ) * 100 := by
    field_simp
    ring
  rw [key]
  exact round2_add_round2_compl _

/-- The record `calculate_user_stats` computes for user "alice" on the
one-task fixture. -/
def rAlice1 : UStatFull :=
  ((calculate_user_stats [taskYes] ["alice"] dt0).user_stats "alice").get
    (by decide)

theorem c7_percent_sum_witness :
    (calculate_user_stats [taskYes] ["alice"] dt0).user_stats "alice" =
      some rAlice1 ∧
    0 < rAlice1.tasks ∧
    rAlice1.percent_completed + rAlice1.percent_incomplete = 100 :=
  ⟨(Option.some_get (by decide)).symm, by decide,
   c7_percent_sum [taskYes] ["alice"] dt0 "alice" rAlice1
     (Option.some_get (by decide)).symm (by decide)⟩

/-- C9: in every per-user record, each matched task increments `tasks`
and at most one of `completed`/`overdue`, so
`completed + overdue ≤ tasks`, and `overdue` never exceeds the user's
incomplete task count `tasks - completed`. -/
theorem c9_user_record_invariant (tasks : List Task) (users : List String)
    (now : PyDateTime) (u : String) (r : UStatFull)
    (h : (calculate_user_stats tasks users now).user_stats u = some r) :
    r.completed + r.overdue ≤ r.tasks ∧
    r.overdue ≤ r.tasks - r.completed := by
  rw [user_stats_eq] at h
  rw [Option.map_eq_some'] at h
  obtain ⟨s, hs, hr⟩ := h
  subst hr
  by_cases hu : u ∈ users
  · rw [fold_counts tasks users now u hu] at hs
    obtain rfl := Option.some.inj hs
    have hcount := countP_pair_le tasks (fun t => t.username == u)
      (fun t => t.completed == "Yes") (fun t => is_overdue t.due_date now)
    have h1 : (finalizeUser tasks.length
        (⟨tasks.countP (fun t => t.username == u),
          tasks.countP (fun t => t.username == u && t.completed == "Yes"),
          tasks.countP (fun t =>
            t.username == u && !(t.completed == "Yes") &&
              is_overdue t.due_date now)⟩ : UCount)).tasks =
        tasks.countP (fun t => t.username == u) := rfl
    constructor
    · exact hcount
    · have hle2 : tasks.countP
          (fun t => t.username == u && t.completed == "Yes") +
          tasks.countP (fun t =>
            t.username == u && !(t.completed == "Yes") &&
              is_overdue t.due_date now) ≤
          tasks.countP (fun t => t.username == u) := hcount
      show tasks.countP (fun t =>
          t.username == u && !(t.completed == "Yes") &&
            is_overdue t.due_date now) ≤
        tasks.countP (fun t => t.username == u) -
          tasks.countP (fun t => t.username == u && t.completed == "Yes")
      omega
  · have hinit : initStats users u = none := by
      unfold initStats
      rw [if_neg hu]
    rw [foldl_applyTask_none now tasks (initStats users) u hinit] at hs
    cases hs

/-- The record `calculate_user_stats` computes for user "alice" on the
four-task scenario fixture. -/
def rAliceSc : UStatFull :=
  ((calculate_user_stats scTasks scUsers dt0).user_stats "alice").get
    (by decide)

theorem c9_user_record_invariant_witness :
    (calculate_user_stats scTasks scUsers dt0).user_stats "alice" =
      some rAliceSc ∧
    rAliceSc.completed + rAliceSc.overdue ≤ rAliceSc.tasks :=
  ⟨(Option.some_get (by decide)).symm,
   (c9_user_record_invariant scTasks scUsers dt0 "alice" rAliceSc
     (Option.some_get (by decide)).symm).1⟩

/-- C10: a task whose completion flag is neither "Yes" nor "No" is
counted in `uncompleted` but never in `overdue_uncompleted`, even when
its due date is in the past; consequently
`overdue_uncompleted ≤ uncompleted` for every collection. -/
theorem c10_flag_mismatch (tasks : List Task) (now : PyDateTime) :
    (calculate_task_stats tasks now).overdue_uncompleted ≤
      (calculate_task_stats tasks now).uncompleted ∧
    (∀ t : Task, t.completed ≠ "Yes" → t.completed ≠ "No" →
      (calculate_task_stats (t :: tasks) now).uncompleted =
        (calculate_task_stats tasks now).uncompleted + 1 ∧
      (calculate_task_stats (t :: tasks) now).overdue_uncompleted =
        (calculate_task_stats tasks now).overdue_uncompleted) := by
  have hsplit : tasks.length =
      tasks.countP (fun t => t.completed == "Yes") +
        tasks.countP (fun t => !(t.completed == "Yes")) := by
    simpa using List.length_eq_countP_add_countP
      (fun t : Task => t.completed == "Yes") tasks
  constructor
  · have hmono : tasks.countP
        (fun t => t.completed == "No" && is_overdue t.due_date now) ≤
        tasks.countP (fun t => !(t.completed == "Yes")) := by
      apply List.countP_mono_left
      intro t _ hp
      simp only [Bool.and_eq_true] at hp
      obtain ⟨hno, _⟩ := hp
      have : t.completed = "No" := by simpa using hno
      simp [this]
    show tasks.countP (fun t => t.completed == "No" && is_overdue t.due_date now) ≤
      tasks.length - tasks.countP (fun t => t.completed == "Yes")
    omega
  · intro t hy hn
    have hyb : (t.completed == "Yes") = false := by simpa using hy
    have hnb : (t.completed == "No") = false := by simpa using hn
    have hle : tasks.countP (fun t => t.completed == "Yes") ≤ tasks.length :=
      List.countP_le_length _
    constructor
    · show (t :: tasks).length -
          (t :: tasks).countP (fun t => t.completed == "Yes") =
        tasks.length - tasks.countP (fun t => t.completed == "Yes") + 1
      rw [List.countP_cons, List.length_cons]
      simp only [hyb, Bool.false_eq_true, if_false]
      omega
    · show (t :: tasks).countP
          (fun t => t.completed == "No" && is_overdue t.due_date now) =
        tasks.countP (fun t => t.completed == "No" && is_overdue t.due_date now)
      rw [List.countP_cons]
      simp [hnb]

theorem c10_flag_mismatch_witness :
    taskLower.completed ≠ "Yes" ∧ taskLower.completed ≠ "No" ∧
    (calculate_task_stats (taskLower :: [taskNoPast]) dt0).uncompleted =
      (calculate_task_stats [taskNoPast] dt0).uncompleted + 1 ∧
    (calculate_task_stats (taskLower :: [taskNoPast]) dt0).overdue_uncompleted =
      (calculate_task_stats [taskNoPast] dt0).overdue_uncompleted :=
  ⟨by decide, by decide,
   ((c10_flag_mismatch [taskNoPast] dt0).2 taskLower (by decide) (by decide)).1,
   ((c10_flag_mismatch [taskNoPast] dt0).2 taskLower (by decide) (by decide)).2⟩

/-- C8 (counterexample): the claim promises a field-for-field identical
round trip whenever no field contains the delimiter; `taskWS` has a
username beginning with a space, contains the delimiter in no field,
and yet reloads with the space stripped by `line.strip()`. -/
theorem c8_roundtrip_counterexample :
    (∀ f ∈ taskFields taskWS, containsSep f = false) ∧
    load_tasks (save_tasks [taskWS]) ≠ [taskWS] := by
  constructor
  · decide
  · decide

/-- C8 (amended): saving and reloading a task collection is the
identity provided no field contains the delimiter `", "` or a
line-break character, the username does not begin with whitespace, and
the completed field is nonempty and does not end with whitespace
(otherwise `line.strip()` or the line splitting alters the record). -/
theorem c8_roundtrip_amended (tasks : List Task)
    (h : ∀ t ∈ tasks, goodTask t = true) :
    load_tasks (save_tasks tasks) = tasks :=
  load_save_roundTrip tasks h

theorem c8_roundtrip_amended_witness :
    (∀ t ∈ [taskYes, taskNoPast], goodTask t = true) ∧
    load_tasks (save_tasks [taskYes, taskNoPast]) = [taskYes, taskNoPast] :=
  ⟨by decide, c8_roundtrip_amended [taskYes, taskNoPast] (by decide)⟩

end TaskManager
